import Mathlib

/-!
Verification of the limit-order lifecycle and execution engine of the
Abstract Reservoir Telegram bot.  The definitions below are a shallow
embedding of the TypeScript source: the order record and its status enum,
the price-eligibility computation of `processOrdersLoop`, the
`getLivePrice` error behaviour, the step/item executor
`executeReservoirSwap`, the per-order tick of `processOrdersLoop`
(eligibility, execution, status save, expiry check, per-order catch),
the two cancel handlers, the `EncryptionService` encrypt/decrypt pair,
and `parseExpiry`.  JavaScript numbers used for prices and slippage are
modelled as rationals; millisecond timestamps as integers; thrown
exceptions as `Except`/`Option`.
-/

set_option linter.unusedVariables false

/-- Order direction, the `type` field of the order schema (`"BUY" | "SELL"`). -/
inductive OrderType
  | BUY
  | SELL
deriving DecidableEq, Repr

/-- Order status enum (`"ACTIVE" | "FILLED" | "CANCELLED"`). -/
inductive OrderStatus
  | ACTIVE
  | FILLED
  | CANCELLED
deriving DecidableEq, Repr

/-- The order record of the main bot (interface `IOrder` in the unnamed
source file): owner id, wallet, direction, token pair, amount, trigger
price, slippage (a percentage, e.g. `1` for 1%), status, and optional
expiry timestamp in milliseconds (`null` modelled as `none`). -/
structure IOrder where
  userId : Nat
  walletAddress : String
  encryptedKey : String
  type : OrderType
  tokenIn : String
  tokenOut : String
  amount : Nat
  triggerPrice : Rat
  slippage : Rat
  status : OrderStatus
  expiry : Option Int
deriving DecidableEq, Repr

/-- Result of the live price fetch as the surrounding code observes it:
`getLivePrice` wraps the HTTP call in a `try`/`catch` and returns `0` on
any failure; it never throws.  The fetch outcome itself is the
environment parameter. -/
def getLivePrice (fetchResult : Except Unit Rat) : Rat :=
  match fetchResult with
  | .ok p => p
  | .error _ => 0

/-- Slippage factor computed in `processOrdersLoop`:
`const slippageFactor = order.slippage / 100`. -/
def slippageFactor (o : IOrder) : Rat :=
  o.slippage / 100

/-- Upper limit used for BUY orders:
`upperLimit = order.triggerPrice * (1 + slippageFactor)`. -/
def upperLimit (o : IOrder) : Rat :=
  o.triggerPrice * (1 + slippageFactor o)

/-- Lower limit used for SELL orders:
`lowerLimit = order.triggerPrice * (1 - slippageFactor)`. -/
def lowerLimit (o : IOrder) : Rat :=
  o.triggerPrice * (1 - slippageFactor o)

/-- The price check with slippage filter of `processOrdersLoop`:
`(order.type === "BUY" && price <= upperLimit) ||
 (order.type === "SELL" && price >= lowerLimit)`. -/
def priceEligible (o : IOrder) (price : Rat) : Bool :=
  match o.type with
  | .BUY => decide (price ≤ upperLimit o)
  | .SELL => decide (lowerLimit o ≤ price)

/-- C4: for an ACTIVE order with trigger price `t` and slippage fraction
`s` (the stored percentage divided by 100), a BUY order is eligible at
price `p` iff `p ≤ t * (1 + s)` and a SELL order iff `p ≥ t * (1 - s)`;
with `t = 100` and `s = 0.01` (stored slippage `1`), BUY is eligible iff
`p ≤ 101` and SELL iff `p ≥ 99`. -/
theorem c4_eligibility_band (o : IOrder) (t s p : Rat)
    (ht : o.triggerPrice = t) (hs : s = o.slippage / 100) :
    (o.type = .BUY → (priceEligible o p = true ↔ p ≤ t * (1 + s))) ∧
    (o.type = .SELL → (priceEligible o p = true ↔ t * (1 - s) ≤ p)) ∧
    (o.type = .BUY → t = 100 → s = 1/100 →
      (priceEligible o p = true ↔ p ≤ 101)) ∧
    (o.type = .SELL → t = 100 → s = 1/100 →
      (priceEligible o p = true ↔ 99 ≤ p)) := by
  subst ht hs
  refine ⟨?_, ?_, ?_, ?_⟩
  · intro hty
    simp [priceEligible, hty, upperLimit, slippageFactor]
  · intro hty
    simp [priceEligible, hty, lowerLimit, slippageFactor]
  · intro hty h100 hfrac
    simp only [priceEligible, hty, upperLimit, slippageFactor, h100]
    rw [div_eq_iff (by norm_num : (100:Rat) ≠ 0)] at hfrac
    rw [hfrac]
    norm_num
  · intro hty h100 hfrac
    simp only [priceEligible, hty, lowerLimit, slippageFactor, h100]
    rw [div_eq_iff (by norm_num : (100:Rat) ≠ 0)] at hfrac
    rw [hfrac]
    norm_num

/-- Witness for `c4_eligibility_band` at a concrete BUY order with
trigger 100, stored slippage 1 (fraction 0.01) and price 101. -/
theorem c4_eligibility_band_witness :
    let o : IOrder :=
      { userId := 1, walletAddress := "0xabc", encryptedKey := "k",
        type := .BUY, tokenIn := "0xin", tokenOut := "0xout",
        amount := 5, triggerPrice := 100, slippage := 1,
        status := .ACTIVE, expiry := none }
    priceEligible o 101 = true ↔ (101 : Rat) ≤ 101 := by
  intro o
  exact ((c4_eligibility_band o 100 (1/100) 101 rfl (by norm_num)).2.2.1
    rfl rfl rfl).trans (by norm_num)

/-- Transaction data carried by a swap-plan item (`ReservoirSwapStep`
item `data` field). -/
structure TxData where
  toAddr : String
  callData : String
  value : Option String
  gas : Option String
  gasPrice : Option String
deriving DecidableEq, Repr

/-- One item of a swap-plan step. -/
structure SwapItem where
  itemStatus : String
  data : TxData
deriving DecidableEq, Repr

/-- One step of a Reservoir swap plan: an identifier and its items. -/
structure ReservoirSwapStep where
  id : String
  items : List SwapItem
deriving DecidableEq, Repr

/-- Chain environment: the outcome of submitting and confirming the item
at a given (step index, item index) position is either a receipt hash or
a thrown error. -/
structure ChainEnv where
  submit : Nat → Nat → Except Unit String

/-- ASCII lowercasing, the model of JavaScript `toLowerCase()` on the
step identifiers used by the code. -/
def jsToLower (s : String) : String :=
  ⟨s.data.map Char.toLower⟩

/-- Inner item loop of `executeReservoirSwap`: submit each item of the
current step in order; on success, record the receipt hash as the
running `tx_hash` when the step id lowercases to `"swap"`; on failure
the thrown error propagates.  Returns the outcome together with the
trace of submitted positions. -/
def execItemsAux (env : ChainEnv) (stepId : String) (sIdx : Nat) :
    List SwapItem → Nat → Option String →
    Except Unit (Option String) × List (Nat × Nat)
  | [], _, h => (.ok h, [])
  | _ :: rest, iIdx, h =>
    match env.submit sIdx iIdx with
    | .error e => (.error e, [(sIdx, iIdx)])
    | .ok hash =>
      let hNext := if jsToLower stepId = "swap" then some hash else h
      let r := execItemsAux env stepId sIdx rest (iIdx + 1) hNext
      (r.1, (sIdx, iIdx) :: r.2)

/-- Outer step loop of `executeReservoirSwap`. -/
def execStepsAux (env : ChainEnv) :
    List ReservoirSwapStep → Nat → Option String →
    Except Unit (Option String) × List (Nat × Nat)
  | [], _, h => (.ok h, [])
  | st :: rest, sIdx, h =>
    match execItemsAux env st.id sIdx st.items 0 h with
    | (.error e, tr) => (.error e, tr)
    | (.ok hNext, tr) =>
      let r := execStepsAux env rest (sIdx + 1) hNext
      (r.1, tr ++ r.2)

/-- The executor `AbstractChainService.executeReservoirSwap`: iterate
the steps and their items in order, submitting each transaction and
waiting for confirmation; any failure rethrows, aborting the remaining
items and steps; on full success return the recorded `tx_hash` (the
receipt hash of the last confirmed item of a step whose id lowercases to
`"swap"`, or `undefined` when there is none). -/
def executeReservoirSwap (steps : List ReservoirSwapStep) (env : ChainEnv) :
    Except Unit (Option String) × List (Nat × Nat) :=
  execStepsAux env steps 0 none

/-- Positions of the items of one step, in submission order. -/
def itemPositions (sIdx : Nat) : List SwapItem → Nat → List (Nat × Nat)
  | [], _ => []
  | _ :: rest, iIdx => (sIdx, iIdx) :: itemPositions sIdx rest (iIdx + 1)

/-- Positions of all items of a plan starting at a given step index, in
submission order. -/
def flatPositionsFrom : List ReservoirSwapStep → Nat → List (Nat × Nat)
  | [], _ => []
  | st :: rest, sIdx =>
    itemPositions sIdx st.items 0 ++ flatPositionsFrom rest (sIdx + 1)

/-- Positions of all items of a plan, in the order the code submits
them. -/
def flatPositions (steps : List ReservoirSwapStep) : List (Nat × Nat) :=
  flatPositions.go steps
where
  go (steps : List ReservoirSwapStep) : List (Nat × Nat) :=
    flatPositionsFrom steps 0

theorem flatPositions_def (steps : List ReservoirSwapStep) :
    flatPositions steps = flatPositionsFrom steps 0 := rfl

/-- Item-level success lemma: when every item of the step succeeds and
the step id does not lowercase to `"swap"`, the item loop keeps the
running hash and submits exactly its positions. -/
theorem execItemsAux_ok_of_not_swap (env : ChainEnv) (stepId : String)
    (sIdx : Nat) (items : List SwapItem) (iIdx : Nat) (h : Option String)
    (hok : ∀ a b, (a, b) ∈ itemPositions sIdx items iIdx →
      ∃ hash, env.submit a b = .ok hash)
    (hns : jsToLower stepId ≠ "swap") :
    execItemsAux env stepId sIdx items iIdx h =
      (.ok h, itemPositions sIdx items iIdx) := by
  induction items generalizing iIdx with
  | nil => rfl
  | cons it rest ih =>
    obtain ⟨hash, hh⟩ := hok sIdx iIdx (by simp [itemPositions])
    simp only [execItemsAux, hh, if_neg hns]
    rw [ih (iIdx + 1) (fun a b hab => hok a b (by simp [itemPositions, hab]))]
    simp [itemPositions]

/-- Step-level success lemma: when every submission succeeds and no step
id lowercases to `"swap"`, the executor returns the unchanged running
hash. -/
theorem execStepsAux_ok_of_no_swap (env : ChainEnv)
    (steps : List ReservoirSwapStep) (sIdx : Nat) (h : Option String)
    (hok : ∀ a b, ∃ hash, env.submit a b = .ok hash)
    (hns : ∀ st ∈ steps, jsToLower st.id ≠ "swap") :
    (execStepsAux env steps sIdx h).1 = .ok h := by
  induction steps generalizing sIdx with
  | nil => rfl
  | cons st rest ih =>
    have hstep := execItemsAux_ok_of_not_swap env st.id sIdx st.items 0 h
      (fun a b _ => hok a b) (hns st (by simp))
    simp only [execStepsAux, hstep]
    exact ih (sIdx + 1) (fun s hs => hns s (by simp [hs]))

/-- Item-level all-success lemma without any assumption on the step id:
the item loop succeeds with some resulting hash and submits exactly its
positions. -/
theorem execItemsAux_ok (env : ChainEnv) (stepId : String)
    (sIdx : Nat) (items : List SwapItem) (iIdx : Nat) (h : Option String)
    (hok : ∀ a b, (a, b) ∈ itemPositions sIdx items iIdx →
      ∃ hash, env.submit a b = .ok hash) :
    ∃ hOut, execItemsAux env stepId sIdx items iIdx h =
      (.ok hOut, itemPositions sIdx items iIdx) := by
  induction items generalizing iIdx h with
  | nil => exact ⟨h, rfl⟩
  | cons it rest ih =>
    obtain ⟨hash, hh⟩ := hok sIdx iIdx (by simp [itemPositions])
    obtain ⟨hOut, hrec⟩ := ih (iIdx + 1)
      (if jsToLower stepId = "swap" then some hash else h)
      (fun a b hab => hok a b (by simp [itemPositions, hab]))
    refine ⟨hOut, ?_⟩
    simp only [execItemsAux, hh, hrec, itemPositions]

/-- Item-level first-failure lemma: if the item positions split as
`preI ++ p :: postI`, every position of `preI` succeeds and `p` fails,
the item loop raises the error and the submitted trace is exactly
`preI ++ [p]`: the items after the failing one are never submitted. -/
theorem execItemsAux_error (env : ChainEnv) (stepId : String)
    (sIdx : Nat) (items : List SwapItem) (iIdx : Nat) (h : Option String)
    (preI postI : List (Nat × Nat)) (a b : Nat)
    (hsplit : itemPositions sIdx items iIdx = preI ++ (a, b) :: postI)
    (hok : ∀ q ∈ preI, ∃ hash, env.submit q.1 q.2 = .ok hash)
    (hfail : env.submit a b = .error ()) :
    execItemsAux env stepId sIdx items iIdx h =
      (.error (), preI ++ [(a, b)]) := by
  induction items generalizing iIdx h preI with
  | nil => simp [itemPositions] at hsplit
  | cons it rest ih =>
    simp only [itemPositions] at hsplit
    cases preI with
    | nil =>
      simp only [List.nil_append, List.cons.injEq] at hsplit
      obtain ⟨hab, _⟩ := hsplit
      rw [Prod.mk.injEq] at hab
      obtain ⟨h1, h2⟩ := hab
      subst h1
      subst h2
      simp [execItemsAux, hfail]
    | cons q preI' =>
      simp only [List.cons_append, List.cons.injEq] at hsplit
      obtain ⟨hq, htail⟩ := hsplit
      obtain ⟨hash, hh⟩ := by
        have := hok q (by simp)
        rwa [← hq] at this
      simp only [execItemsAux, hh]
      rw [ih (iIdx + 1) (if jsToLower stepId = "swap" then some hash else h)
        preI' htail (fun p hp => hok p (by simp [hp]))]
      simp [hq]

/-- Step-level first-failure lemma: if the flattened submission order of
the remaining steps splits as `pre ++ p :: post`, every position of
`pre` succeeds and `p` fails, the executor raises the error and submits
exactly `pre ++ [p]`. -/
theorem execStepsAux_error (env : ChainEnv)
    (steps : List ReservoirSwapStep) (sIdx : Nat) (h : Option String)
    (pre post : List (Nat × Nat)) (a b : Nat)
    (hsplit : flatPositionsFrom steps sIdx = pre ++ (a, b) :: post)
    (hok : ∀ q ∈ pre, ∃ hash, env.submit q.1 q.2 = .ok hash)
    (hfail : env.submit a b = .error ()) :
    execStepsAux env steps sIdx h = (.error (), pre ++ [(a, b)]) := by
  induction steps generalizing sIdx h pre post with
  | nil => simp [flatPositionsFrom] at hsplit
  | cons st rest ih =>
    simp only [flatPositionsFrom] at hsplit
    rcases List.append_eq_append_iff.mp hsplit with ⟨t, hpre, hrest⟩ | ⟨t, hitems, hpost⟩
    · -- the failing position lies in the remaining steps
      obtain ⟨hOut, hitems⟩ := execItemsAux_ok env st.id sIdx st.items 0 h
        (fun x y hxy => hok (x, y) (by simp [hpre, hxy]))
      simp only [execStepsAux, hitems]
      rw [ih (sIdx + 1) hOut t post hrest
        (fun q hq => hok q (by simp [hpre, hq]))]
      simp [hpre]
    · -- the failing position lies in the current step's items
      cases t with
      | nil =>
        -- the current step's items are exactly `pre`; the failure is the
        -- head of the remaining steps' positions
        simp only [List.append_nil] at hitems
        obtain ⟨hOut, hitemsOk⟩ := execItemsAux_ok env st.id sIdx st.items 0 h
          (fun x y hxy => hok (x, y) (by rw [hitems] at hxy; exact hxy))
        simp only [execStepsAux, hitemsOk]
        rw [ih (sIdx + 1) hOut [] post (by simpa using hpost.symm)
          (by simp)]
        simp [hitems]
      | cons p t' =>
        obtain ⟨hp, hpost'⟩ := by
          simpa using hpost
        have hi := execItemsAux_error env st.id sIdx st.items 0 h pre t' a b
          (by rw [hitems, ← hp]) hok hfail
        simp only [execStepsAux, hi]

/-- Outbound Telegram notifications the tick can emit: the execution
success message, whose transaction link interpolates the value returned
by `executeReservoirSwap` (possibly `undefined`), and the
order-expired-and-cancelled message. -/
inductive Notification
  | executed (sig : Option String)
  | expired
deriving DecidableEq, Repr

/-- Environment of one scheduler tick for one order: the outcome of the
price fetch, the outcome of the quote request, the chain submission
outcomes, and the current time `Date.now()` in milliseconds. -/
structure TickEnv where
  priceFetch : Except Unit Rat
  quote : Except Unit (List ReservoirSwapStep)
  chain : ChainEnv
  now : Int

/-- Observable outcome of processing one order on one tick: the updated
order record, the sequence of status values written by `order.save()`,
whether a swap plan was requested from the quote endpoint, the trace of
submitted transaction positions, and the notifications sent. -/
structure TickResult where
  order : IOrder
  saves : List OrderStatus
  planRequested : Bool
  submitted : List (Nat × Nat)
  notes : List Notification
deriving DecidableEq, Repr

/-- One iteration of the per-order body of `processOrdersLoop`.  The
loop only fetches ACTIVE orders, so a terminal order is untouched.  For
an ACTIVE order: fetch the live price (`0` on fetch failure), evaluate
the eligibility band; if eligible, request a quote, execute the swap
plan, set the status to FILLED, save, and send the success message; any
throw from the quote request or the executor jumps to the per-order
`catch`, skipping everything after it including the expiry check.  After
a successful fill (or when not eligible) the expiry check runs: when
`order.expiry !== null && Date.now() > order.expiry`, the status is set
to CANCELLED, saved, and the expiry message is sent — the code performs
this check without re-reading the status. -/
def processOrderTick (o : IOrder) (env : TickEnv) : TickResult :=
  if o.status ≠ .ACTIVE then
    { order := o, saves := [], planRequested := false,
      submitted := [], notes := [] }
  else
    let price := getLivePrice env.priceFetch
    if priceEligible o price then
      match env.quote with
      | .error _ =>
        { order := o, saves := [], planRequested := true,
          submitted := [], notes := [] }
      | .ok steps =>
        let r := executeReservoirSwap steps env.chain
        match r.1 with
        | .error _ =>
          { order := o, saves := [], planRequested := true,
            submitted := r.2, notes := [] }
        | .ok sig =>
          match o.expiry with
          | some e =>
            if env.now > e then
              { order := { o with status := .CANCELLED },
                saves := [.FILLED, .CANCELLED], planRequested := true,
                submitted := r.2,
                notes := [.executed sig, .expired] }
            else
              { order := { o with status := .FILLED },
                saves := [.FILLED], planRequested := true,
                submitted := r.2, notes := [.executed sig] }
          | none =>
            { order := { o with status := .FILLED },
              saves := [.FILLED], planRequested := true,
              submitted := r.2, notes := [.executed sig] }
    else
      match o.expiry with
      | some e =>
        if env.now > e then
          { order := { o with status := .CANCELLED },
            saves := [.CANCELLED], planRequested := false,
            submitted := [], notes := [.expired] }
        else
          { order := o, saves := [], planRequested := false,
            submitted := [], notes := [] }
      | none =>
        { order := o, saves := [], planRequested := false,
          submitted := [], notes := [] }

/-- Iterated scheduler ticks on one order: each pass feeds the updated
record into the next (the loop re-fetches from the store every pass). -/
def runTicks (o : IOrder) (envs : List TickEnv) : IOrder :=
  envs.foldl (fun acc env => (processOrderTick acc env).order) o

/-- Concrete ACTIVE BUY order whose trigger is met and whose expiry has
already passed. -/
def filledExpiredOrder : IOrder :=
  { userId := 7, walletAddress := "0xowner", encryptedKey := "enc",
    type := .BUY, tokenIn := "0xweth", tokenOut := "0xtoken",
    amount := 1000, triggerPrice := 100, slippage := 1,
    status := .ACTIVE, expiry := some 0 }

/-- Concrete one-step swap plan whose step id is `"swap"`. -/
def simplePlan : List ReservoirSwapStep :=
  [{ id := "swap",
     items := [{ itemStatus := "incomplete",
                 data := { toAddr := "0xrouter", callData := "0xcd",
                           value := some "0", gas := none,
                           gasPrice := none } }] }]

/-- Tick environment where the price fetch succeeds at 50, the quote
succeeds with `simplePlan`, every submission confirms, and the current
time is past the order's expiry. -/
def filledExpiredEnv : TickEnv :=
  { priceFetch := .ok 50, quote := .ok simplePlan,
    chain := ⟨fun _ _ => .ok "0xhash"⟩, now := 1000 }

/-- The fill-then-expire branch of the tick: for an ACTIVE order that is
eligible, whose quote and execution succeed, and whose expiry is set and
past, the tick writes FILLED and then CANCELLED. -/
theorem processOrderTick_fill_expired (o : IOrder) (env : TickEnv)
    (steps : List ReservoirSwapStep) (sig : Option String) (e : Int)
    (hact : o.status = .ACTIVE)
    (helig : priceEligible o (getLivePrice env.priceFetch) = true)
    (hquote : env.quote = .ok steps)
    (hexec : (executeReservoirSwap steps env.chain).1 = .ok sig)
    (hexp : o.expiry = some e) (hnow : e < env.now) :
    (processOrderTick o env).saves = [.FILLED, .CANCELLED] ∧
    (processOrderTick o env).order.status = .CANCELLED ∧
    (processOrderTick o env).notes = [.executed sig, .expired] := by
  have hcond : ¬o.status ≠ OrderStatus.ACTIVE := by simp [hact]
  simp only [processOrderTick, if_neg hcond, helig, if_true, hquote, hexec,
    hexp]
  rw [if_pos hnow]
  exact ⟨rfl, rfl, rfl⟩

/-- C1 (code bug): a single tick on an ACTIVE order that is both
eligible and expired writes FILLED and then immediately CANCELLED — the
expiry check of `processOrdersLoop` runs after a successful fill without
re-checking the status, so the order ends the tick CANCELLED after
having been marked FILLED, contradicting the monotonic-terminal-state
invariant. -/
theorem c1_filled_then_cancelled_same_tick :
    (processOrderTick filledExpiredOrder filledExpiredEnv).saves =
      [.FILLED, .CANCELLED] ∧
    (processOrderTick filledExpiredOrder filledExpiredEnv).order.status =
      .CANCELLED ∧
    (processOrderTick filledExpiredOrder filledExpiredEnv).notes =
      [.executed (some "0xhash"), .expired] := by
  refine processOrderTick_fill_expired filledExpiredOrder filledExpiredEnv
    simplePlan (some "0xhash") 0 rfl ?_ rfl ?_ rfl (by decide)
  · norm_num [priceEligible, filledExpiredOrder, filledExpiredEnv,
      getLivePrice, upperLimit, slippageFactor]
  · have : executeReservoirSwap simplePlan filledExpiredEnv.chain =
        (.ok (some "0xhash"), [(0, 0)]) := by
      simp [executeReservoirSwap, execStepsAux, execItemsAux, simplePlan,
        filledExpiredEnv]
      decide
    rw [this]

/-- Expiry field is never modified by a tick. -/
theorem processOrderTick_expiry (o : IOrder) (env : TickEnv) :
    (processOrderTick o env).order.expiry = o.expiry := by
  unfold processOrderTick
  dsimp only
  repeat' split
  all_goals rfl

/-- A tick never writes CANCELLED on an order with no expiry: the only
CANCELLED writes of `processOrdersLoop` are guarded by
`order.expiry !== null`. -/
theorem processOrderTick_no_expiry_not_cancelled (o : IOrder) (env : TickEnv)
    (hexp : o.expiry = none) (h : o.status ≠ .CANCELLED) :
    (processOrderTick o env).order.status ≠ .CANCELLED := by
  unfold processOrderTick
  dsimp only
  repeat' split
  all_goals simp_all

/-- C7: an ACTIVE order whose expiry is set and in the past and which is
not eligible this tick is transitioned to CANCELLED on that tick with
the expiry notification; and an order with no expiry is never cancelled
by any sequence of scheduler ticks. -/
theorem c7_expiry_behaviour (o : IOrder) (env : TickEnv) (e : Int)
    (envs : List TickEnv) :
    (o.status = .ACTIVE → o.expiry = some e → e < env.now →
      priceEligible o (getLivePrice env.priceFetch) = false →
      (processOrderTick o env).order.status = .CANCELLED ∧
      (processOrderTick o env).saves = [.CANCELLED] ∧
      (processOrderTick o env).notes = [.expired]) ∧
    (o.expiry = none → o.status ≠ .CANCELLED →
      (runTicks o envs).status ≠ .CANCELLED) := by
  constructor
  · intro hact hexp hlt hinel
    have hcond : ¬o.status ≠ OrderStatus.ACTIVE := by simp [hact]
    simp only [processOrderTick, if_neg hcond, hinel, hexp,
      Bool.false_eq_true, if_false]
    rw [if_pos (by exact hlt)]
    exact ⟨rfl, rfl, rfl⟩
  · intro hexp hnc
    induction envs generalizing o with
    | nil => exact hnc
    | cons env0 rest ih =>
      have hpres := processOrderTick_expiry o env0
      rw [hexp] at hpres
      exact ih (processOrderTick o env0).order hpres
        (processOrderTick_no_expiry_not_cancelled o env0 hexp hnc)

/-- Concrete ACTIVE SELL order with passed expiry, not eligible at the
fetched price 50 (its lower limit is 99). -/
def expiredSellOrder : IOrder :=
  { userId := 8, walletAddress := "0xowner2", encryptedKey := "enc2",
    type := .SELL, tokenIn := "0xtoken", tokenOut := "0xweth",
    amount := 500, triggerPrice := 100, slippage := 1,
    status := .ACTIVE, expiry := some 0 }

/-- Concrete ACTIVE SELL order with no expiry. -/
def noExpiryOrder : IOrder :=
  { expiredSellOrder with userId := 9, expiry := none }

/-- Witness for `c7_expiry_behaviour` at concrete orders and a concrete
environment. -/
theorem c7_expiry_behaviour_witness :
    (processOrderTick expiredSellOrder filledExpiredEnv).order.status =
      .CANCELLED ∧
    (runTicks noExpiryOrder [filledExpiredEnv]).status ≠ .CANCELLED := by
  constructor
  · exact ((c7_expiry_behaviour expiredSellOrder filledExpiredEnv 0 []).1
      rfl rfl (by decide)
      (by norm_num [priceEligible, expiredSellOrder, filledExpiredEnv,
        getLivePrice, lowerLimit, slippageFactor])).1
  · exact (c7_expiry_behaviour noExpiryOrder filledExpiredEnv 0
      [filledExpiredEnv]).2 rfl (by decide)

/-- The successful-fill branch of the tick for an order without expiry:
an ACTIVE, eligible order whose quote and execution succeed is marked
FILLED, with the success notification interpolating the executor's
returned hash. -/
theorem processOrderTick_fill_no_expiry (o : IOrder) (env : TickEnv)
    (steps : List ReservoirSwapStep) (sig : Option String)
    (hact : o.status = .ACTIVE)
    (helig : priceEligible o (getLivePrice env.priceFetch) = true)
    (hquote : env.quote = .ok steps)
    (hexec : (executeReservoirSwap steps env.chain).1 = .ok sig)
    (hexp : o.expiry = none) :
    (processOrderTick o env).order.status = .FILLED ∧
    (processOrderTick o env).saves = [.FILLED] ∧
    (processOrderTick o env).planRequested = true ∧
    (processOrderTick o env).submitted =
      (executeReservoirSwap steps env.chain).2 ∧
    (processOrderTick o env).notes = [.executed sig] := by
  have hcond : ¬o.status ≠ OrderStatus.ACTIVE := by simp [hact]
  simp only [processOrderTick, if_neg hcond, helig, if_true, hquote, hexec,
    hexp]
  refine ⟨?_, ?_, ?_, ?_, ?_⟩ <;> trivial

/-- Concrete ACTIVE BUY order with no expiry, used against a failing
price fetch. -/
def buyOrderFetchFail : IOrder :=
  { userId := 11, walletAddress := "0xbuyer", encryptedKey := "enc3",
    type := .BUY, tokenIn := "0xweth", tokenOut := "0xtoken",
    amount := 100, triggerPrice := 100, slippage := 1,
    status := .ACTIVE, expiry := none }

/-- Environment whose price fetch fails while the quote and the chain
submissions succeed. -/
def fetchFailEnv : TickEnv :=
  { priceFetch := .error (), quote := .ok simplePlan,
    chain := ⟨fun _ _ => .ok "0xhash"⟩, now := 0 }

/-- C2 counterexample: on a price-fetch failure the tick does not skip
the order — `getLivePrice` returns `0`, the BUY band check `0 <= 101`
passes, a swap plan is requested, a transaction is submitted, and the
order is marked FILLED. -/
theorem c2_fetch_failure_counterexample :
    (processOrderTick buyOrderFetchFail fetchFailEnv).planRequested = true ∧
    (processOrderTick buyOrderFetchFail fetchFailEnv).submitted = [(0, 0)] ∧
    (processOrderTick buyOrderFetchFail fetchFailEnv).order.status =
      .FILLED := by
  have hexecFull : executeReservoirSwap simplePlan fetchFailEnv.chain =
      (.ok (some "0xhash"), [(0, 0)]) := by
    simp [executeReservoirSwap, execStepsAux, execItemsAux, simplePlan,
      fetchFailEnv]
    decide
  have h := processOrderTick_fill_no_expiry buyOrderFetchFail fetchFailEnv
    simplePlan (some "0xhash") rfl
    (by norm_num [priceEligible, buyOrderFetchFail, fetchFailEnv,
      getLivePrice, upperLimit, slippageFactor])
    rfl (by rw [hexecFull]) rfl
  refine ⟨h.2.2.1, ?_, h.1⟩
  rw [h.2.2.2.1, hexecFull]

/-- C2 as amended: when the price fetch fails the order is evaluated at
price `0` instead of being skipped.  A SELL order with positive trigger
price and slippage below 100 is then not eligible, so no plan is
requested, nothing is submitted and the order is not marked FILLED; but
a BUY order with nonnegative trigger price and slippage is eligible at
price `0` and proceeds to request a swap plan. -/
theorem c2_amended_fetch_failure (o : IOrder) (env : TickEnv)
    (hact : o.status = .ACTIVE) (hfail : env.priceFetch = .error ()) :
    (o.type = .SELL → 0 < o.triggerPrice → o.slippage < 100 →
      (processOrderTick o env).planRequested = false ∧
      (processOrderTick o env).submitted = [] ∧
      (processOrderTick o env).order.status ≠ .FILLED) ∧
    (o.type = .BUY → 0 ≤ o.triggerPrice → 0 ≤ o.slippage →
      priceEligible o (getLivePrice env.priceFetch) = true ∧
      (processOrderTick o env).planRequested = true) := by
  have hcond : ¬o.status ≠ OrderStatus.ACTIVE := by simp [hact]
  constructor
  · intro hty ht hs
    have hone : (0 : Rat) < 1 - o.slippage / 100 := by
      have hd : o.slippage / 100 < 1 := by
        rw [div_lt_one (by norm_num : (0:Rat) < 100)]
        exact hs
      linarith
    have hpos : 0 < lowerLimit o := mul_pos ht hone
    have hinel : priceEligible o (getLivePrice env.priceFetch) = false := by
      simp only [priceEligible, hty, hfail, getLivePrice,
        decide_eq_false_iff_not, not_le]
      exact hpos
    simp only [processOrderTick, if_neg hcond, hinel, Bool.false_eq_true,
      if_false]
    refine ⟨?_, ?_, ?_⟩
    · repeat' split
      all_goals rfl
    · repeat' split
      all_goals rfl
    · repeat' split
      all_goals simp_all
  · intro hty ht hs
    have hup : (0 : Rat) ≤ upperLimit o := by
      have hone : (0 : Rat) ≤ 1 + o.slippage / 100 := by
        have : (0 : Rat) ≤ o.slippage / 100 := by positivity
        linarith
      exact mul_nonneg ht hone
    have helig : priceEligible o (getLivePrice env.priceFetch) = true := by
      simp only [priceEligible, hty, hfail, getLivePrice, decide_eq_true_eq]
      exact hup
    refine ⟨helig, ?_⟩
    simp only [processOrderTick, if_neg hcond, helig, if_true]
    repeat' split
    all_goals rfl

/-- Concrete ACTIVE SELL order with no expiry, used against a failing
price fetch. -/
def sellOrderFetchFail : IOrder :=
  { buyOrderFetchFail with userId := 12, type := .SELL }

/-- Witness for `c2_amended_fetch_failure` at concrete SELL and BUY
orders. -/
theorem c2_amended_fetch_failure_witness :
    (processOrderTick sellOrderFetchFail fetchFailEnv).planRequested =
      false ∧
    (processOrderTick buyOrderFetchFail fetchFailEnv).planRequested =
      true := by
  constructor
  · exact ((c2_amended_fetch_failure sellOrderFetchFail fetchFailEnv rfl
      rfl).1 rfl (by norm_num [sellOrderFetchFail, buyOrderFetchFail])
      (by norm_num [sellOrderFetchFail, buyOrderFetchFail])).1
  · exact ((c2_amended_fetch_failure buyOrderFetchFail fetchFailEnv rfl
      rfl).2 rfl (by norm_num [buyOrderFetchFail])
      (by norm_num [buyOrderFetchFail])).2

/-- C5: when the swap plan's flattened submission order splits as
`pre ++ p :: post`, every submission before `p` confirms and `p` fails,
the executor surfaces the error to the caller, exactly `pre ++ [p]` was
submitted (every later item and step is skipped), and the per-order
catch leaves the order untouched: no status is saved and it remains
ACTIVE, to be retried with a fresh plan on a later tick. -/
theorem c5_partial_failure_keeps_active (o : IOrder) (env : TickEnv)
    (steps : List ReservoirSwapStep) (pre post : List (Nat × Nat))
    (a b : Nat)
    (hact : o.status = .ACTIVE)
    (helig : priceEligible o (getLivePrice env.priceFetch) = true)
    (hquote : env.quote = .ok steps)
    (hsplit : flatPositions steps = pre ++ (a, b) :: post)
    (hok : ∀ q ∈ pre, ∃ hash, env.chain.submit q.1 q.2 = .ok hash)
    (hfail : env.chain.submit a b = .error ()) :
    (executeReservoirSwap steps env.chain).1 = .error () ∧
    (processOrderTick o env).submitted = pre ++ [(a, b)] ∧
    (processOrderTick o env).order = o ∧
    (processOrderTick o env).order.status = .ACTIVE ∧
    (processOrderTick o env).saves = [] := by
  have hexecFull : executeReservoirSwap steps env.chain =
      (.error (), pre ++ [(a, b)]) :=
    execStepsAux_error env.chain steps 0 none pre post a b
      ((flatPositions_def steps).symm.trans hsplit) hok hfail
  have hcond : ¬o.status ≠ OrderStatus.ACTIVE := by simp [hact]
  have hres : (executeReservoirSwap steps env.chain).1 = .error () := by
    rw [hexecFull]
  refine ⟨hres, ?_, ?_, ?_, ?_⟩
  all_goals
    simp only [processOrderTick, if_neg hcond, helig, if_true, hquote,
      hexecFull]
  all_goals
    first
      | rfl
      | exact hact

/-- Concrete two-step plan: an approval step followed by the swap
step. -/
def twoStepPlan : List ReservoirSwapStep :=
  [{ id := "approve",
     items := [{ itemStatus := "incomplete",
                 data := { toAddr := "0xtoken", callData := "0xapprovecd",
                           value := none, gas := none,
                           gasPrice := none } }] },
   { id := "swap",
     items := [{ itemStatus := "incomplete",
                 data := { toAddr := "0xrouter", callData := "0xswapcd",
                           value := some "0", gas := none,
                           gasPrice := none } }] }]

/-- Environment where the approval submission confirms but the swap
submission fails. -/
def partialFailEnv : TickEnv :=
  { priceFetch := .ok 50, quote := .ok twoStepPlan,
    chain := ⟨fun a _ => if a = 0 then .ok "0xapproved" else .error ()⟩,
    now := 0 }

/-- Witness for `c5_partial_failure_keeps_active`: step 1 confirms, step
2 fails; the error is surfaced, only the two attempted items were
submitted, and the order stays ACTIVE with no saves. -/
theorem c5_partial_failure_keeps_active_witness :
    (executeReservoirSwap twoStepPlan partialFailEnv.chain).1 =
      .error () ∧
    (processOrderTick buyOrderFetchFail partialFailEnv).order.status =
      .ACTIVE ∧
    (processOrderTick buyOrderFetchFail partialFailEnv).submitted =
      [(0, 0), (1, 0)] := by
  have h := c5_partial_failure_keeps_active buyOrderFetchFail partialFailEnv
    twoStepPlan [(0, 0)] [] 1 0 rfl
    (by norm_num [priceEligible, buyOrderFetchFail, partialFailEnv,
      getLivePrice, upperLimit, slippageFactor])
    rfl rfl
    (by
      intro q hq
      simp only [List.mem_singleton] at hq
      subst hq
      exact ⟨"0xapproved", rfl⟩)
    rfl
  exact ⟨h.1, h.2.2.2.1, h.2.1⟩

/-- C9: when every submission confirms but no step id lowercases to
`"swap"`, the executor returns no receipt hash (`undefined`), yet the
order is still marked FILLED and the success notification references
the missing hash. -/
theorem c9_no_swap_step_missing_receipt (o : IOrder) (env : TickEnv)
    (steps : List ReservoirSwapStep)
    (hact : o.status = .ACTIVE)
    (helig : priceEligible o (getLivePrice env.priceFetch) = true)
    (hquote : env.quote = .ok steps)
    (hexp : o.expiry = none)
    (hok : ∀ a b, ∃ hash, env.chain.submit a b = .ok hash)
    (hns : ∀ st ∈ steps, jsToLower st.id ≠ "swap") :
    (executeReservoirSwap steps env.chain).1 = .ok none ∧
    (processOrderTick o env).order.status = .FILLED ∧
    (processOrderTick o env).saves = [.FILLED] ∧
    (processOrderTick o env).notes = [.executed none] := by
  have hexec : (executeReservoirSwap steps env.chain).1 = .ok none :=
    execStepsAux_ok_of_no_swap env.chain steps 0 none hok hns
  have h := processOrderTick_fill_no_expiry o env steps none hact helig
    hquote hexec hexp
  exact ⟨hexec, h.1, h.2.1, h.2.2.2.2⟩

/-- Concrete one-step plan whose only step id is `"deposit"`, not
`"swap"`. -/
def noSwapPlan : List ReservoirSwapStep :=
  [{ id := "deposit",
     items := [{ itemStatus := "incomplete",
                 data := { toAddr := "0xbridge", callData := "0xdepcd",
                           value := some "1", gas := none,
                           gasPrice := none } }] }]

/-- Environment where every submission confirms and the quote returns
`noSwapPlan`. -/
def noSwapEnv : TickEnv :=
  { priceFetch := .ok 50, quote := .ok noSwapPlan,
    chain := ⟨fun _ _ => .ok "0xconfirmed"⟩, now := 0 }

/-- Witness for `c9_no_swap_step_missing_receipt` on the concrete
deposit-only plan. -/
theorem c9_no_swap_step_missing_receipt_witness :
    (executeReservoirSwap noSwapPlan noSwapEnv.chain).1 = .ok none ∧
    (processOrderTick buyOrderFetchFail noSwapEnv).order.status =
      .FILLED ∧
    (processOrderTick buyOrderFetchFail noSwapEnv).notes =
      [.executed none] := by
  have h := c9_no_swap_step_missing_receipt buyOrderFetchFail noSwapEnv
    noSwapPlan rfl
    (by norm_num [priceEligible, buyOrderFetchFail, noSwapEnv,
      getLivePrice, upperLimit, slippageFactor])
    rfl rfl (fun a b => ⟨"0xconfirmed", rfl⟩)
    (by
      intro st hst
      simp only [noSwapPlan, List.mem_singleton] at hst
      subst hst
      decide)
  exact ⟨h.1, h.2.1, h.2.2.2⟩

/-- The status write path of the bot: `order.status = X; await
order.save()`.  A mongoose `save()` updates the document by id without
comparing the current status to any expected value, so the write always
succeeds whatever the stored status is.  Returns the new stored status
and whether the write succeeded. -/
def unconditionalSave (current newStatus : OrderStatus) :
    OrderStatus × Bool :=
  (newStatus, true)

/-- State of two execution attempts racing on one order id: the stored
status, the status each attempt read when it fetched the order, and
counters of successful FILLED writes and of writes rejected as
conflicts. -/
structure RaceState where
  store : OrderStatus
  seenA : Option OrderStatus
  seenB : Option OrderStatus
  filledWrites : Nat
  conflicts : Nat
deriving DecidableEq, Repr

/-- Atomic events of the two attempts: each attempt reads the order's
status once (the `Order.find({status: "ACTIVE"})` fetch) and, if it read
ACTIVE, later writes FILLED through the save path. -/
inductive RaceEvent
  | readA
  | readB
  | writeA
  | writeB
deriving DecidableEq, Repr

/-- An attempt that read ACTIVE executes and writes FILLED through
`unconditionalSave`; an attempt that read a terminal status (or has not
read) does nothing. -/
def applyFillWrite (st : RaceState) (seen : Option OrderStatus) :
    RaceState :=
  match seen with
  | some .ACTIVE =>
    let r := unconditionalSave st.store .FILLED
    { st with store := r.1,
              filledWrites := st.filledWrites + (if r.2 then 1 else 0),
              conflicts := st.conflicts + (if r.2 then 0 else 1) }
  | _ => st

/-- One interleaved atomic event. -/
def raceStep (st : RaceState) (e : RaceEvent) : RaceState :=
  match e with
  | .readA => { st with seenA := some st.store }
  | .readB => { st with seenB := some st.store }
  | .writeA => applyFillWrite st st.seenA
  | .writeB => applyFillWrite st st.seenB

/-- Run an interleaving of the two attempts from an ACTIVE order. -/
def raceRun (events : List RaceEvent) : RaceState :=
  events.foldl raceStep
    { store := .ACTIVE, seenA := none, seenB := none,
      filledWrites := 0, conflicts := 0 }

/-- C3 counterexample: the write path succeeds even when the current
status differs from what the writer expected (a save of CANCELLED over a
FILLED order succeeds), and in the interleaving where both attempts read
ACTIVE before either writes, both FILLED writes succeed and neither
attempt is rejected as a conflict — not exactly one of each. -/
theorem c3_no_compare_and_transition_counterexample :
    unconditionalSave .FILLED .CANCELLED = (.CANCELLED, true) ∧
    (raceRun [.readA, .readB, .writeA, .writeB]).filledWrites = 2 ∧
    (raceRun [.readA, .readB, .writeA, .writeB]).conflicts = 0 :=
  ⟨rfl, rfl, rfl⟩

/-- C3 as amended: the bot has no compare-and-transition — the status
write path is an unconditional overwrite that succeeds regardless of the
order's current status, so two concurrent execution attempts on the same
ACTIVE order id that both read ACTIVE before either writes both perform
a successful FILLED write with zero attempts rejected as conflicts. -/
theorem c3_amended_unconditional_write (cur newStatus : OrderStatus) :
    unconditionalSave cur newStatus = (newStatus, true) ∧
    (raceRun [.readA, .readB, .writeA, .writeB]).filledWrites = 2 ∧
    (raceRun [.readA, .readB, .writeA, .writeB]).conflicts = 0 ∧
    (raceRun [.readA, .readB, .writeA, .writeB]).store = .FILLED :=
  ⟨rfl, rfl, rfl, rfl⟩

/-- Reply sent by the main bot's cancel handler. -/
inductive CancelReply
  | alreadyFinalized
  | cancelled
deriving DecidableEq, Repr

/-- The `cancel_order_` callback handler of the main bot: look the order
up; when its status is not ACTIVE, reply that it is already cancelled or
filled and return without modifying it; otherwise set CANCELLED and
save. -/
def cancelOrderHandler (o : IOrder) : IOrder × CancelReply :=
  if o.status ≠ .ACTIVE then (o, .alreadyFinalized)
  else ({ o with status := .CANCELLED }, .cancelled)

/-- Order record of the secondary bot in `src/index.ts`. -/
structure LegacyOrder where
  userId : Nat
  type : OrderType
  tokenIn : String
  tokenOut : String
  amountIn : String
  amountOut : String
  slippage : Rat
  status : OrderStatus
deriving DecidableEq, Repr

/-- The `cancel_` callback handler of `src/index.ts`:
`Order.findByIdAndUpdate(orderId, { status: "CANCELLED", updatedAt:
new Date() })` — an unconditional update with no guard on the current
status. -/
def legacyCancelHandler (o : LegacyOrder) : LegacyOrder :=
  { o with status := .CANCELLED }

/-- Concrete FILLED legacy order. -/
def filledLegacyOrder : LegacyOrder :=
  { userId := 3, type := .BUY, tokenIn := "0xa", tokenOut := "0xb",
    amountIn := "1", amountOut := "100", slippage := 1/2,
    status := .FILLED }

/-- C6 counterexample: the cancel handler of `src/index.ts` applied to
an order that is already FILLED sets its status to CANCELLED — the
cancel path there is not guarded on the current status being ACTIVE and
does not leave terminal orders unchanged. -/
theorem c6_unguarded_cancel_counterexample :
    filledLegacyOrder.status = .FILLED ∧
    (legacyCancelHandler filledLegacyOrder).status = .CANCELLED :=
  ⟨rfl, rfl⟩

/-- C6 as amended: the main bot's `cancel_order_` handler is guarded on
the current status being ACTIVE — on a terminal order it is a no-op
reported as already cancelled or filled — while the secondary cancel
handler in `src/index.ts` sets CANCELLED unconditionally, clobbering
terminal orders. -/
theorem c6_amended_cancel_paths (o : IOrder) (l : LegacyOrder)
    (hterm : o.status ≠ .ACTIVE) :
    cancelOrderHandler o = (o, .alreadyFinalized) ∧
    (legacyCancelHandler l).status = .CANCELLED := by
  constructor
  · simp [cancelOrderHandler, hterm]
  · rfl

/-- Witness for `c6_amended_cancel_paths` at a FILLED order of each
record shape. -/
theorem c6_amended_cancel_paths_witness :
    cancelOrderHandler { filledExpiredOrder with status := .FILLED } =
      ({ filledExpiredOrder with status := .FILLED },
        .alreadyFinalized) ∧
    (legacyCancelHandler filledLegacyOrder).status = .CANCELLED :=
  c6_amended_cancel_paths { filledExpiredOrder with status := .FILLED }
    filledLegacyOrder (by simp)

set_option maxRecDepth 8192

/-- The symmetric cipher provided by the Node crypto library
(`createCipheriv`/`createDecipheriv` with `aes-256-cbc`), abstracted as
a pair of byte-level functions of key, iv and data.  The cipher itself
is library code, not part of this repository; the service's own logic is
the iv handling, hex encoding and message format around it. -/
structure CipherAlgorithm where
  enc : List Nat → List Nat → List Nat → List Nat
  dec : List Nat → List Nat → List Nat → List Nat

/-- Lower-case hex digit for a nibble, as in Node's `"hex"` encoding. -/
def hexDigitChar (n : Nat) : Char :=
  if n < 10 then Char.ofNat (48 + n) else Char.ofNat (87 + n)

/-- Numeric value of a lower-case hex digit. -/
def hexValue (c : Char) : Nat :=
  if 48 ≤ c.toNat ∧ c.toNat ≤ 57 then c.toNat - 48
  else if 97 ≤ c.toNat ∧ c.toNat ≤ 102 then c.toNat - 87
  else 0

/-- Hex encoding of a byte list (`Buffer.toString("hex")`). -/
def hexOfBytes : List Nat → List Char
  | [] => []
  | b :: bs => hexDigitChar (b / 16) :: hexDigitChar (b % 16) :: hexOfBytes bs

/-- Hex decoding of a character list (`Buffer.from(s, "hex")`). -/
def bytesOfHex : List Char → List Nat
  | c1 :: c2 :: rest => (hexValue c1 * 16 + hexValue c2) :: bytesOfHex rest
  | _ => []

/-- Hex digits of a byte round-trip through encode/decode. -/
theorem hexByte_roundtrip : ∀ n < 256,
    hexValue (hexDigitChar (n / 16)) * 16 +
      hexValue (hexDigitChar (n % 16)) = n := by
  decide

/-- A nibble's hex digit is never the separator `':'`. -/
theorem hexDigitChar_ne_colon : ∀ n < 16, hexDigitChar n ≠ ':' := by
  decide

/-- Hex decoding inverts hex encoding on byte lists. -/
theorem bytesOfHex_hexOfBytes (bs : List Nat) (h : ∀ b ∈ bs, b < 256) :
    bytesOfHex (hexOfBytes bs) = bs := by
  induction bs with
  | nil => rfl
  | cons b rest ih =>
    simp only [hexOfBytes, bytesOfHex]
    rw [hexByte_roundtrip b (h b (by simp)),
      ih (fun x hx => h x (by simp [hx]))]

/-- The hex encoding of a byte list contains no `':'`. -/
theorem hexOfBytes_no_colon (bs : List Nat) (h : ∀ b ∈ bs, b < 256) :
    ∀ c ∈ hexOfBytes bs, c ≠ ':' := by
  induction bs with
  | nil => simp [hexOfBytes]
  | cons b rest ih =>
    intro c hc
    simp only [hexOfBytes, List.mem_cons] at hc
    rcases hc with rfl | rfl | hc
    · exact hexDigitChar_ne_colon (b / 16)
        (Nat.div_lt_of_lt_mul (h b (by simp)))
    · exact hexDigitChar_ne_colon (b % 16) (Nat.mod_lt _ (by norm_num))
    · exact ih (fun x hx => h x (by simp [hx])) c hc

/-- `takeWhile (≠ ':')` on a colon-free part followed by `':'` keeps
exactly the colon-free part. -/
theorem takeWhile_append_colon (as bs : List Char)
    (h : ∀ c ∈ as, c ≠ ':') :
    (as ++ ':' :: bs).takeWhile (· ≠ ':') = as := by
  induction as with
  | nil => simp
  | cons a rest ih =>
    have ha : a ≠ ':' := h a (by simp)
    have ih2 := ih (fun c hc => h c (by simp [hc]))
    rw [List.cons_append, List.takeWhile_cons, if_pos (by simp [ha]), ih2]

/-- `dropWhile (≠ ':')` on a colon-free part followed by `':'` drops
exactly the colon-free part. -/
theorem dropWhile_append_colon (as bs : List Char)
    (h : ∀ c ∈ as, c ≠ ':') :
    (as ++ ':' :: bs).dropWhile (· ≠ ':') = ':' :: bs := by
  induction as with
  | nil => simp
  | cons a rest ih =>
    have ha : a ≠ ':' := h a (by simp)
    have ih2 := ih (fun c hc => h c (by simp [hc]))
    rw [List.cons_append, List.dropWhile_cons, if_pos (by simp [ha]), ih2]

/-- `takeWhile (≠ ':')` keeps a colon-free list whole. -/
theorem takeWhile_no_colon (as : List Char) (h : ∀ c ∈ as, c ≠ ':') :
    as.takeWhile (· ≠ ':') = as := by
  induction as with
  | nil => rfl
  | cons a rest ih =>
    have ha : a ≠ ':' := h a (by simp)
    have ih2 := ih (fun c hc => h c (by simp [hc]))
    rw [List.takeWhile_cons, if_pos (by simp [ha]), ih2]

/-- `EncryptionService.encrypt`: draw an iv, run the library cipher with
the process-wide key, and produce
`iv.toString("hex") + ":" + ciphertext hex`.  The plaintext is its UTF-8
byte sequence; the random iv is a parameter. -/
def EncryptionService.encrypt (alg : CipherAlgorithm)
    (key iv text : List Nat) : List Char :=
  hexOfBytes iv ++ ':' :: hexOfBytes (alg.enc key iv text)

/-- `EncryptionService.decrypt`: split the message on `":"`, take the
first part as the iv hex and the second as the ciphertext hex, decode
both, and run the library decipher with the same process-wide key. -/
def EncryptionService.decrypt (alg : CipherAlgorithm) (key : List Nat)
    (cs : List Char) : List Nat :=
  let ivHex := cs.takeWhile (· ≠ ':')
  let rest := (cs.dropWhile (· ≠ ':')).drop 1
  let encHex := rest.takeWhile (· ≠ ':')
  alg.dec key (bytesOfHex ivHex) (bytesOfHex encHex)

/-- C8: for every plaintext (as its byte sequence) and every iv,
decrypting the result of encrypting with the process-wide key returns
the plaintext, provided the library cipher is correct (deciphering
inverts enciphering under the same key and iv) and produces bytes.  The
service's own format — iv prefix, `":"` separator, hex round-trip, same
key on both sides — preserves exactly the data the decipher needs. -/
theorem c8_decrypt_encrypt_roundtrip (alg : CipherAlgorithm)
    (key iv text : List Nat)
    (hcorrect : ∀ k i m, alg.dec k i (alg.enc k i m) = m)
    (hiv : ∀ b ∈ iv, b < 256)
    (hct : ∀ b ∈ alg.enc key iv text, b < 256) :
    EncryptionService.decrypt alg key
      (EncryptionService.encrypt alg key iv text) = text := by
  unfold EncryptionService.encrypt EncryptionService.decrypt
  rw [takeWhile_append_colon _ _ (hexOfBytes_no_colon iv hiv),
    dropWhile_append_colon _ _ (hexOfBytes_no_colon iv hiv)]
  simp only [List.drop_succ_cons, List.drop_zero]
  rw [takeWhile_no_colon _ (hexOfBytes_no_colon _ hct),
    bytesOfHex_hexOfBytes iv hiv, bytesOfHex_hexOfBytes _ hct, hcorrect]

/-- Cipher that returns its input unchanged; it trivially satisfies the
correctness hypothesis of the round-trip theorem. -/
def identityCipher : CipherAlgorithm :=
  ⟨fun _ _ m => m, fun _ _ c => c⟩

/-- Witness for `c8_decrypt_encrypt_roundtrip` at a concrete key, iv and
plaintext. -/
theorem c8_decrypt_encrypt_roundtrip_witness :
    EncryptionService.decrypt identityCipher [1, 2]
      (EncryptionService.encrypt identityCipher [1, 2] [0, 255]
        [104, 105]) = [104, 105] :=
  c8_decrypt_encrypt_roundtrip identityCipher [1, 2] [0, 255] [104, 105]
    (fun _ _ _ => rfl) (by decide) (by decide)

/-- ASCII whitespace recognised by the model of
`String.prototype.trim()`. -/
def isJsWhitespace (c : Char) : Bool :=
  (c == ' ') || (c == '\t') || (c == '\n') || (c == '\r') ||
    (c == '\x0b') || (c == '\x0c')

/-- Model of `expiry.trim()`: strip whitespace from both ends. -/
def jsTrim (cs : List Char) : List Char :=
  ((cs.dropWhile isJsWhitespace).reverse.dropWhile isJsWhitespace).reverse

/-- The normalisation `expiry.trim().toLowerCase()` performed first by
`parseExpiry`. -/
def jsNormalize (cs : List Char) : List Char :=
  (jsTrim cs).map Char.toLower

/-- Decimal digit test, the `\d` of the expiry regex. -/
def isDigitChar (c : Char) : Bool :=
  decide (48 ≤ c.toNat ∧ c.toNat ≤ 57)

/-- Value of a decimal digit string, `parseInt(digits, 10)`. -/
def digitsToNat (ds : List Char) : Nat :=
  ds.foldl (fun a c => a * 10 + (c.toNat - 48)) 0

/-- Core of `parseExpiry` on the normalised string: `"never"` and `"0"`
mean no expiry (0 seconds); otherwise the regex `^(\d+)([dhm])$` must
match — a nonempty digit prefix and a final unit character — giving
days, hours or minutes in seconds; every other input throws, modelled as
`none`. -/
def parseExpiryNorm (t : List Char) : Option Nat :=
  if t = ['n', 'e', 'v', 'e', 'r'] ∨ t = ['0'] then some 0
  else
    match t.reverse with
    | [] => none
    | u :: rds =>
      if rds.reverse ≠ [] ∧ rds.reverse.all isDigitChar = true then
        if u = 'd' then some (digitsToNat rds.reverse * 86400)
        else if u = 'h' then some (digitsToNat rds.reverse * 3600)
        else if u = 'm' then some (digitsToNat rds.reverse * 60)
        else none
      else none

/-- `parseExpiry`: trim and lowercase the input, then parse it; a thrown
`Invalid expiry format` is `none`. -/
def parseExpiry (cs : List Char) : Option Nat :=
  parseExpiryNorm (jsNormalize cs)

/-- Value of `parseExpiryNorm` on a digit string followed by a unit. -/
theorem parseExpiryNorm_unit (ds : List Char) (u : Char)
    (hne : ds ≠ []) (hdig : ds.all isDigitChar = true)
    (hu : u = 'd' ∨ u = 'h' ∨ u = 'm') :
    parseExpiryNorm (ds ++ [u]) =
      some (digitsToNat ds *
        (if u = 'd' then 86400 else if u = 'h' then 3600 else 60)) := by
  have hnever : ¬(ds ++ [u] = ['n', 'e', 'v', 'e', 'r'] ∨
      ds ++ [u] = ['0']) := by
    rintro (h | h)
    · have hrev := congrArg List.reverse h
      simp only [List.reverse_append, List.reverse_cons, List.reverse_nil,
        List.nil_append, List.singleton_append, List.cons.injEq] at hrev
      rcases hu with rfl | rfl | rfl <;> simp_all
    · have hlen := congrArg List.length h
      simp only [List.length_append, List.length_cons, List.length_nil]
        at hlen
      have : ds.length = 0 := by omega
      exact hne (List.eq_nil_of_length_eq_zero this)
  simp only [parseExpiryNorm, if_neg hnever, List.reverse_append,
    List.reverse_cons, List.reverse_nil, List.nil_append,
    List.singleton_append, List.reverse_reverse]
  rw [if_pos ⟨hne, hdig⟩]
  rcases hu with rfl | rfl | rfl <;> simp

/-- Acceptance characterisation of `parseExpiryNorm`: the parse succeeds
exactly on `"never"`, `"0"`, and a nonempty digit string followed by one
of `d`, `h`, `m`. -/
theorem parseExpiryNorm_isSome_iff (t : List Char) :
    (parseExpiryNorm t).isSome = true ↔
      (t = ['n', 'e', 'v', 'e', 'r'] ∨ t = ['0'] ∨
        ∃ ds u, t = ds ++ [u] ∧ ds ≠ [] ∧ ds.all isDigitChar = true ∧
          (u = 'd' ∨ u = 'h' ∨ u = 'm')) := by
  constructor
  · intro hsome
    by_cases h0 : t = ['n', 'e', 'v', 'e', 'r'] ∨ t = ['0']
    · tauto
    · right
      right
      simp only [parseExpiryNorm, if_neg h0] at hsome
      cases hrev : t.reverse with
      | nil =>
        simp only [hrev] at hsome
        simp at hsome
      | cons u rds =>
        simp only [hrev] at hsome
        by_cases hcond : rds.reverse ≠ [] ∧
            rds.reverse.all isDigitChar = true
        · refine ⟨rds.reverse, u, ?_, hcond.1, hcond.2, ?_⟩
          · simpa using congrArg List.reverse hrev
          · by_cases hd : u = 'd'
            · exact Or.inl hd
            by_cases hh : u = 'h'
            · exact Or.inr (Or.inl hh)
            by_cases hm : u = 'm'
            · exact Or.inr (Or.inr hm)
            rw [if_pos hcond, if_neg hd, if_neg hh, if_neg hm] at hsome
            simp at hsome
        · rw [if_neg hcond] at hsome
          simp at hsome
  · rintro (h | h | ⟨ds, u, ht, hne, hdig, hu⟩)
    · simp [parseExpiryNorm, h]
    · simp [parseExpiryNorm, h]
    · rw [ht, parseExpiryNorm_unit ds u hne hdig hu]
      rfl

/-- C10: `parseExpiry` succeeds exactly on the strings whose trimmed,
lowercased form is `"never"`, `"0"`, or digits followed by `d`, `h` or
`m`; it returns 0 for the first two and n*86400, n*3600, n*60 seconds
for `"nd"`, `"nh"`, `"nm"` respectively, and fails (throws) on every
other input. -/
theorem c10_parseExpiry_characterisation (cs : List Char) :
    (parseExpiry cs = parseExpiryNorm (jsNormalize cs)) ∧
    ((parseExpiry cs).isSome = true ↔
      (jsNormalize cs = ['n', 'e', 'v', 'e', 'r'] ∨
        jsNormalize cs = ['0'] ∨
        ∃ ds u, jsNormalize cs = ds ++ [u] ∧ ds ≠ [] ∧
          ds.all isDigitChar = true ∧ (u = 'd' ∨ u = 'h' ∨ u = 'm'))) ∧
    ((jsNormalize cs = ['n', 'e', 'v', 'e', 'r'] ∨
        jsNormalize cs = ['0']) → parseExpiry cs = some 0) ∧
    (∀ ds, ds ≠ [] → ds.all isDigitChar = true →
      (jsNormalize cs = ds ++ ['d'] →
        parseExpiry cs = some (digitsToNat ds * 86400)) ∧
      (jsNormalize cs = ds ++ ['h'] →
        parseExpiry cs = some (digitsToNat ds * 3600)) ∧
      (jsNormalize cs = ds ++ ['m'] →
        parseExpiry cs = some (digitsToNat ds * 60))) := by
  refine ⟨rfl, parseExpiryNorm_isSome_iff (jsNormalize cs), ?_, ?_⟩
  · intro h
    show parseExpiryNorm (jsNormalize cs) = some 0
    rcases h with h | h <;> simp [parseExpiryNorm, h]
  · intro ds hne hdig
    refine ⟨?_, ?_, ?_⟩ <;> intro hn <;>
      (show parseExpiryNorm (jsNormalize cs) = _) <;>
      rw [hn, parseExpiryNorm_unit ds _ hne hdig (by tauto)] <;> simp

/-- Witness for `c10_parseExpiry_characterisation`: `" 2H "` trims and
lowercases to `"2h"` and parses to 7200 seconds. -/
theorem c10_parseExpiry_characterisation_witness :
    parseExpiry [' ', '2', 'H', ' '] = some 7200 := by
  have h := ((c10_parseExpiry_characterisation
    [' ', '2', 'H', ' ']).2.2.2 ['2'] (by decide) (by decide)).2.1
    (by decide)
  simpa using h
